import Mathlib

/-!
Verification of the hybrid PDF parser (`hybrid_pdf_parser.py`).

Shallow embedding conventions:
* Python strings that carry document text are modelled as `List Char`
  (abbreviated `PyStr`); file names, tags and method labels stay `String`.
* `str.strip()` is `pyStrip`, `str.split('\n')` is `pySplitNl`,
  `sep.join(parts)` is `pyJoin`.
* The external collaborators (the GROBID HTTP service, `ET.fromstring`,
  and PyMuPDF) are an `Env` record: the service call outcome, the XML
  parser as a partial function (`none` models a parse exception), and the
  per-page text list (`none` models an open/read exception).
* TEI XML trees are `XmlElem` / `XmlForest`: ElementTree elements with a
  tag, head text (`text`), following text (`tail`, stored on the element
  itself as in ElementTree) and a forest of children.
-/

abbrev PyStr := List Char

/-- Whitespace characters stripped by Python's `str.strip()` (ASCII set). -/
def pyIsSpace (c : Char) : Bool :=
  c = ' ' || c = '\t' || c = '\n' || c = '\r' || c = '\x0b' || c = '\x0c'

/-- Model of Python `str.strip()`: drop whitespace from both ends. -/
def pyStrip (s : PyStr) : PyStr :=
  ((s.dropWhile pyIsSpace).reverse.dropWhile pyIsSpace).reverse

/-- Model of Python `str.split('\n')`. -/
def pySplitNl : PyStr → List PyStr
  | [] => [[]]
  | c :: cs =>
    match pySplitNl cs with
    | [] => if c = '\n' then [[], []] else [[c]]
    | l :: ls => if c = '\n' then [] :: l :: ls else (c :: l) :: ls

/-- Model of Python `sep.join(parts)`. -/
def pyJoin (sep : PyStr) : List PyStr → PyStr
  | [] => []
  | [p] => p
  | p :: ps => p ++ sep ++ pyJoin sep ps

/-- Index of the last occurrence of `c` in `cs` (Python `str.rfind`),
`none` when absent. -/
def lastIdxOf (c : Char) (cs : List Char) : Option Nat :=
  match cs.reverse.findIdx? (· = c) with
  | none => none
  | some j => some (cs.length - 1 - j)

/-- Model of `pathlib.PurePath.stem`: the file name minus its last
suffix, where a suffix needs a dot at position `i` with `0 < i < len-1`. -/
def stem (name : String) : String :=
  match lastIdxOf '.' name.data with
  | none => name
  | some i =>
    if 0 < i ∧ i < name.data.length - 1 then String.mk (name.data.take i) else name

mutual
/-- An ElementTree element: tag, head text (`elem.text`, `[]` models
`None`), following text (`elem.tail`), and children. -/
inductive XmlElem : Type where
  | node (tag : String) (text : PyStr) (tailText : PyStr) (children : XmlForest)
deriving DecidableEq
/-- A list of sibling elements. -/
inductive XmlForest : Type where
  | nil
  | cons (head : XmlElem) (rest : XmlForest)
deriving DecidableEq
end

def XmlElem.tag : XmlElem → String
  | .node g _ _ _ => g

def XmlElem.text : XmlElem → PyStr
  | .node _ t _ _ => t

def XmlElem.tailText : XmlElem → PyStr
  | .node _ _ l _ => l

def XmlElem.children : XmlElem → XmlForest
  | .node _ _ _ c => c

/-- Children of a forest as a plain list (one level, no recursion). -/
def forestToList : XmlForest → List XmlElem
  | .nil => []
  | .cons c cs => c :: forestToList cs

mutual
/-- Model of `extract_text_from_element`'s loop body over `element.iter()`:
the stripped head texts of the element and all its descendants, in
pre-order (document) order, keeping those with truthy text whose strip is
non-empty (`if elem.text and elem.text.strip()`). -/
def textsOf : XmlElem → List PyStr
  | .node _ t _ cs => (if t ≠ [] ∧ pyStrip t ≠ [] then [pyStrip t] else []) ++ textsOfF cs
def textsOfF : XmlForest → List PyStr
  | .nil => []
  | .cons c cs => textsOf c ++ textsOfF cs
end

/-- Model of `HybridPDFParser.extract_text_from_element`: `""` for a
missing element, else the space-join of the collected text parts. -/
def extract_text_from_element : Option XmlElem → PyStr
  | none => []
  | some e => pyJoin [' '] (textsOf e)

/-- TEI-namespaced tag, as ElementTree expands `tei:` with the namespace
map `\x7bhttp://www.tei-c.org/ns/1.0\x7d`. -/
def teiTag (s : String) : String :=
  "\x7bhttp://www.tei-c.org/ns/1.0\x7d" ++ s

mutual
/-- Pre-order listing of an element and its descendants (`elem.iter()`). -/
def preorderE : XmlElem → List XmlElem
  | .node g t l cs => .node g t l cs :: preorderF cs
/-- Pre-order listing of all elements of a forest. -/
def preorderF : XmlForest → List XmlElem
  | .nil => []
  | .cons c cs => preorderE c ++ preorderF cs
end

/-- Model of `root.find('.//tei:profileDesc/tei:abstract', ns)`:
for each proper descendant of `root` tagged `profileDesc` (pre-order),
its children tagged `abstract`; the first such element overall. -/
def find_profileDesc_abstract (root : XmlElem) : Option XmlElem :=
  (((preorderF root.children).filter (fun e => e.tag = teiTag "profileDesc")).flatMap
    (fun pd => (forestToList pd.children).filter (fun c => c.tag = teiTag "abstract"))).head?

/-- Model of `root.find('.//tei:body', ns)`: the first proper descendant
of `root` tagged `body`, in pre-order. -/
def find_body (root : XmlElem) : Option XmlElem :=
  ((preorderF root.children).filter (fun e => e.tag = teiTag "body")).head?

/-- Outcome of the `requests.post` call to GROBID (the whole `try` body
of `parse_pdf_to_xml`): `exn` models any raised exception (network error,
timeout, local open failure), `ok` a completed HTTP response. -/
inductive ServiceResult : Type where
  | exn
  | ok (status : Nat) (body : String)
deriving DecidableEq

/-- The external collaborators of one document's processing. -/
structure Env where
  service : ServiceResult
  parseXml : String → Option XmlElem
  pages : Option (List PyStr)

/-- A document path; only its final component name is observable. -/
structure PPath where
  name : String
deriving DecidableEq

/-- Model of `HybridPDFParser.parse_pdf_to_xml`: `None` on any exception
or non-200 status, else the response text. -/
def parse_pdf_to_xml (env : Env) (path : PPath) : Option String :=
  match env.service with
  | .exn => none
  | .ok status body => if status = 200 then some body else none

/-- The `\x7b"abstract": ..., "full_text": ...\x7d` dictionary returned
by both extraction paths. -/
structure ExtractedData where
  abstract : PyStr
  full_text : PyStr
deriving DecidableEq

/-- Model of `HybridPDFParser.extract_from_xml`: parse the body, read the
abstract from `.//tei:profileDesc/tei:abstract` and the full text from
`.//tei:body` (empty when missing); any parse exception yields the empty
dictionary. -/
def extract_from_xml (env : Env) (xml_content : String) : ExtractedData :=
  match env.parseXml xml_content with
  | none => { abstract := [], full_text := [] }
  | some root =>
    { abstract := extract_text_from_element (find_profileDesc_abstract root)
      full_text := extract_text_from_element (find_body root) }

/-- The abstract-accumulation loop of `extract_text_with_pymupdf` over
`lines[:20]`: strip the line; when it is non-empty and longer than 50
characters append it plus a space; break right after an append once the
buffer length exceeds 500. -/
def abstractLoop : List PyStr → PyStr → PyStr
  | [], acc => acc
  | line :: rest, acc =>
    if pyStrip line ≠ [] ∧ (pyStrip line).length > 50 then
      if (acc ++ pyStrip line ++ [' ']).length > 500 then acc ++ pyStrip line ++ [' ']
      else abstractLoop rest (acc ++ pyStrip line ++ [' '])
    else abstractLoop rest acc

/-- The heuristic abstract of a full text: run `abstractLoop` over the
first 20 lines of `full_text.split('\n')` starting from the empty buffer. -/
def heuristicAbstract (full_text : PyStr) : PyStr :=
  abstractLoop ((pySplitNl full_text).take 20) []

/-- Model of `HybridPDFParser.extract_text_with_pymupdf`: concatenate
`text + "\n"` for every page whose text has non-whitespace content, build
the heuristic abstract from the first 20 lines, and return both stripped;
any exception (modelled by `pages = none`) yields the empty dictionary. -/
def extract_text_with_pymupdf (env : Env) (path : PPath) : ExtractedData :=
  match env.pages with
  | none => { abstract := [], full_text := [] }
  | some pages =>
    let full_text := pages.foldl
      (fun acc text => if pyStrip text ≠ [] then acc ++ text ++ ['\n'] else acc) []
    let abstract := heuristicAbstract full_text
    { abstract := pyStrip abstract, full_text := pyStrip full_text }

/-- The `if xml_content: ... else: ...` dispatch of `parse_article`
(lines 124-133): a truthy (present and non-empty) response body goes to
`extract_from_xml` with method `"GROBID"`; `None` or an empty body goes
to `extract_text_with_pymupdf` with method `"PyMuPDF"`. -/
def resolve (env : Env) (path : PPath) : ExtractedData × String :=
  match parse_pdf_to_xml env path with
  | some xml_content =>
    if xml_content ≠ "" then (extract_from_xml env xml_content, "GROBID")
    else (extract_text_with_pymupdf env path, "PyMuPDF")
  | none => (extract_text_with_pymupdf env path, "PyMuPDF")

/-- One emitted per-document record. -/
structure ExtractionResult where
  filename : String
  title : String
  abstract : PyStr
  full_text : PyStr
  abstract_length : Nat
  text_length : Nat
  method : String
deriving DecidableEq

/-- Model of `HybridPDFParser.parse_article`: resolve the extraction
path, return `None` when both fields are empty, else the result record. -/
def parse_article (env : Env) (path : PPath) : Option ExtractionResult :=
  let ed := resolve env path
  if ed.1.abstract = [] ∧ ed.1.full_text = [] then none
  else some
    { filename := path.name
      title := stem path.name
      abstract := ed.1.abstract
      full_text := ed.1.full_text
      abstract_length := ed.1.abstract.length
      text_length := ed.1.full_text.length
      method := ed.2 }

/-- One enumerated input document of a batch run: its path together with
the behaviour of the external collaborators for it. -/
structure Doc where
  path : PPath
  env : Env

/-- The statistics record `stats` built by `main`. -/
structure BatchStats where
  total_files : Nat
  successful : Nat
  grobid_success : Nat
  pymupdf_success : Nat
  failed : Nat
  success_rate : String
deriving DecidableEq

/-- Content of one JSON file written by `main`. -/
inductive FileContent : Type where
  | article (r : ExtractionResult)
  | allArticles (rs : List ExtractionResult)
  | statistics (s : BatchStats)
deriving DecidableEq

/-- The mutable state of `main`'s processing loop: the collected results,
the three counters, and the `json.dump` writes performed so far, each as
a file name paired with its content. -/
structure BatchState where
  results : List ExtractionResult
  grobid_success : Nat
  pymupdf_success : Nat
  failed : Nat
  writes : List (String × FileContent)
deriving DecidableEq

/-- One iteration of `main`'s loop (lines 169-196): on success append
the result, bump the method counter and write
`\x7btitle\x7d_\x7bmethod\x7d.json`; on `None` bump `failed`. -/
def processDoc (st : BatchState) (d : Doc) : BatchState :=
  match parse_article d.env d.path with
  | some result =>
    { results := st.results ++ [result]
      grobid_success :=
        if result.method = "GROBID" then st.grobid_success + 1 else st.grobid_success
      pymupdf_success :=
        if result.method = "GROBID" then st.pymupdf_success else st.pymupdf_success + 1
      failed := st.failed
      writes := st.writes ++
        [(result.title ++ "_" ++ result.method ++ ".json", FileContent.article result)] }
  | none => { st with failed := st.failed + 1 }

/-- The loop's initial state. -/
def initState : BatchState :=
  { results := [], grobid_success := 0, pymupdf_success := 0, failed := 0, writes := [] }

/-- The state after `main`'s loop over the enumerated documents. -/
def runBatch (docs : List Doc) : BatchState :=
  docs.foldl processDoc initState

/-- Exact rounding of `num/den` to the nearest integer, ties to even:
the idealised (real-arithmetic) reading of Python's float formatting. -/
def roundHalfEven (num den : Nat) : Nat :=
  let q := num / den
  let r := num % den
  if 2 * r > den then q + 1
  else if 2 * r < den then q
  else if q % 2 = 0 then q else q + 1

/-- Model of `f"\x7bsuccessful/total*100:.1f\x7d%"`: the percentage with
one decimal place.  Python computes this on IEEE doubles; the model uses
exact rational arithmetic with round-half-to-even. -/
def formatPercent (successful total : Nat) : String :=
  let n := roundHalfEven (successful * 1000) total
  Nat.repr (n / 10) ++ "." ++ Nat.repr (n % 10) ++ "%"

/-- The `stats` dictionary of `main` (lines 204-211). -/
def mkStats (total : Nat) (st : BatchState) : BatchStats :=
  { total_files := total
    successful := st.results.length
    grobid_success := st.grobid_success
    pymupdf_success := st.pymupdf_success
    failed := st.failed
    success_rate := formatPercent st.results.length total }

/-- All files written by one run of `main`: the per-document writes of
the loop, then — only when at least one result was collected (line 198) —
`all_articles.json` and `parsing_statistics.json`. -/
def finalWrites (docs : List Doc) : List (String × FileContent) :=
  let st := runBatch docs
  if st.results ≠ [] then
    st.writes ++
      [("all_articles.json", FileContent.allArticles st.results),
       ("parsing_statistics.json", FileContent.statistics (mkStats docs.length st))]
  else st.writes

/-- The successful results of a document list, in enumeration order. -/
def successes (docs : List Doc) : List ExtractionResult :=
  docs.filterMap (fun d => parse_article d.env d.path)

mutual
/-- Spec reading of "all contained non-empty text fragments of the
element and its descendants, in document order": the element's head
text, then for each child recursively its fragments followed by the
child's tail text (each stripped, empty ones dropped). -/
def fragsOf : XmlElem → List PyStr
  | .node _ t _ cs => (if pyStrip t ≠ [] then [pyStrip t] else []) ++ fragsOfF cs
def fragsOfF : XmlForest → List PyStr
  | .nil => []
  | .cons c cs =>
    (fragsOf c ++ (if pyStrip c.tailText ≠ [] then [pyStrip c.tailText] else [])) ++ fragsOfF cs
end

/-- The space-join of all text fragments (head texts and tails) of an
element, per the claim's words. -/
def specFragJoin (e : XmlElem) : PyStr :=
  pyJoin [' '] (fragsOf e)

/-- Amended-spec reading of the structured text extraction: the stripped
head texts of the element and its descendants, in pre-order, non-empty
ones space-joined — tail fragments excluded. -/
def specHeadJoin (e : XmlElem) : PyStr :=
  pyJoin [' '] (((preorderE e).map (fun x => pyStrip x.text)).filter (fun t => t ≠ []))

/-- Spec wording of the heuristic abstract scan: for each line, when the
stripped line is strictly longer than 50 characters append it plus a
separating space, and stop as soon as the buffer exceeds 500 characters,
checking after the append. -/
def abstractSpecScan : List PyStr → PyStr → PyStr
  | [], acc => acc
  | line :: rest, acc =>
    if (pyStrip line).length > 50 then
      if (acc ++ pyStrip line ++ [' ']).length > 500 then acc ++ pyStrip line ++ [' ']
      else abstractSpecScan rest (acc ++ pyStrip line ++ [' '])
    else abstractSpecScan rest acc

/-- Claim C9's wording of the heuristic full text: the plain
concatenation of the page texts, in page order, skipping pages whose
text is only whitespace. -/
def specPlainConcat (pages : List PyStr) : PyStr :=
  (pages.filter (fun t => pyStrip t ≠ [])).flatten

/-! Helper lemmas. -/

theorem pyStrip_nil : pyStrip [] = [] := rfl

theorem foldl_processDoc_eq (docs : List Doc) : ∀ st : BatchState,
    docs.foldl processDoc st =
      { results := st.results ++ successes docs
        grobid_success := st.grobid_success +
          (successes docs).countP (fun r => r.method == "GROBID")
        pymupdf_success := st.pymupdf_success +
          (successes docs).countP (fun r => !(r.method == "GROBID"))
        failed := st.failed + docs.countP (fun d => (parse_article d.env d.path).isNone)
        writes := st.writes ++ (successes docs).map
          (fun r => (r.title ++ "_" ++ r.method ++ ".json", FileContent.article r)) } := by
  induction docs with
  | nil => intro st; simp [successes]
  | cons d ds ih =>
    intro st
    rw [List.foldl_cons]
    cases h : parse_article d.env d.path with
    | none =>
      simp only [processDoc, h]
      rw [ih]
      congr 1
      · simp [successes, h]
      · simp [successes, h]
      · simp [successes, h]
      · simp [successes, h, List.countP_cons]; omega
      · simp [successes, h]
    | some r =>
      simp only [processDoc, h]
      rw [ih]
      congr 1
      · simp [successes, h]
      · by_cases hg : r.method = "GROBID" <;>
          simp [successes, h, List.countP_cons, hg] <;> omega
      · by_cases hg : r.method = "GROBID" <;>
          simp [successes, h, List.countP_cons, hg] <;> omega
      · simp [successes, h, List.countP_cons]
      · simp [successes, h]

theorem successes_length_add_none (docs : List Doc) :
    (successes docs).length + docs.countP (fun d => (parse_article d.env d.path).isNone)
      = docs.length := by
  induction docs with
  | nil => simp [successes]
  | cons d ds ih =>
    simp only [successes] at ih ⊢
    cases h : parse_article d.env d.path <;>
      simp [List.filterMap_cons, h, List.countP_cons] <;> omega

theorem countP_method_split (rs : List ExtractionResult) :
    rs.countP (fun r => r.method == "GROBID") +
      rs.countP (fun r => !(r.method == "GROBID")) = rs.length := by
  induction rs with
  | nil => simp
  | cons r rs ih =>
    simp only [List.countP_cons, List.length_cons]
    cases hb : (r.method == "GROBID") <;> simp [hb] <;> omega

theorem abstractLoop_eq_spec (lines : List PyStr) : ∀ acc : PyStr,
    abstractLoop lines acc = abstractSpecScan lines acc := by
  induction lines with
  | nil => intro acc; rfl
  | cons line rest ih =>
    intro acc
    by_cases hl : (pyStrip line).length > 50
    · have hne : pyStrip line ≠ [] := by
        intro e
        rw [e] at hl
        simp at hl
      simp [abstractLoop, abstractSpecScan, hl, hne, ih]
    · simp [abstractLoop, abstractSpecScan, hl, ih]

theorem abstractLoop_bound (L : Nat) (lines : List PyStr) :
    ∀ acc : PyStr, (∀ l ∈ lines, (pyStrip l).length ≤ L) → acc.length ≤ 500 →
      (abstractLoop lines acc).length ≤ 501 + L := by
  induction lines with
  | nil =>
    intro acc _ hacc
    simp only [abstractLoop]
    omega
  | cons line rest ih =>
    intro acc hL hacc
    have hline : (pyStrip line).length ≤ L := hL line (by simp)
    have hrest : ∀ l ∈ rest, (pyStrip l).length ≤ L := fun l hl => hL l (by simp [hl])
    simp only [abstractLoop]
    by_cases hc : pyStrip line ≠ [] ∧ (pyStrip line).length > 50
    · rw [if_pos hc]
      by_cases h2 : (acc ++ pyStrip line ++ [' ']).length > 500
      · rw [if_pos h2]
        simp only [List.length_append, List.length_singleton]
        omega
      · rw [if_neg h2]
        exact ih _ hrest (by omega)
    · rw [if_neg hc]
      exact ih _ hrest hacc

theorem pagesFold_eq (pages : List PyStr) : ∀ acc : PyStr,
    pages.foldl (fun acc text => if pyStrip text ≠ [] then acc ++ text ++ ['\n'] else acc) acc
      = acc ++ ((pages.filter (fun t => pyStrip t ≠ [])).map (fun t => t ++ ['\n'])).flatten := by
  induction pages with
  | nil => intro acc; simp
  | cons p ps ih =>
    intro acc
    simp only [List.foldl_cons]
    by_cases hp : pyStrip p ≠ []
    · rw [if_pos hp, ih, List.filter_cons, if_pos (by simp [hp])]
      simp [List.append_assoc]
    · rw [if_neg hp, ih, List.filter_cons, if_neg (by simp_all)]

mutual
theorem textsOf_eq_head : ∀ e : XmlElem,
    textsOf e = ((preorderE e).map (fun x => pyStrip x.text)).filter (fun t => t ≠ [])
  | .node g t l cs => by
    have hf := textsOfF_eq_head cs
    simp only [textsOf, preorderE, List.map_cons, List.filter_cons, XmlElem.text, hf]
    by_cases ht : pyStrip t ≠ []
    · have htne : t ≠ [] := by
        intro e
        rw [e, pyStrip_nil] at ht
        exact ht rfl
      simp [ht, htne]
    · simp only [ne_eq, not_not] at ht
      simp [ht]
theorem textsOfF_eq_head : ∀ f : XmlForest,
    textsOfF f = ((preorderF f).map (fun x => pyStrip x.text)).filter (fun t => t ≠ [])
  | .nil => by simp [textsOfF, preorderF]
  | .cons c cs => by
    have h1 := textsOf_eq_head c
    have h2 := textsOfF_eq_head cs
    simp [textsOfF, preorderF, h1, h2]
end

/-! Concrete documents used by counterexamples and witnesses. -/

/-- A 69-character line, longer than the 50-character threshold. -/
def longLine : PyStr :=
  "The quick brown fox jumps over the lazy dog near the riverbank today".data

/-- A document path with a `.pdf` suffix. -/
def pathA : PPath := { name := "paper.pdf" }

/-- Service completes with HTTP 200 but a body that does not parse as
XML, while the local library could extract a long page of text. -/
def envC1 : Env :=
  { service := .ok 200 "not xml", parseXml := fun _ => none, pages := some [longLine] }

/-- Every collaborator fails: the service raises, and the local open
raises too. -/
def envFail : Env :=
  { service := .exn, parseXml := fun _ => none, pages := none }

/-- The service answers 503. -/
def env503 : Env :=
  { service := .ok 503 "Service Unavailable", parseXml := fun _ => none, pages := none }

/-- Service unreachable but the local library returns one long page. -/
def envHeur : Env :=
  { service := .exn, parseXml := fun _ => none, pages := some [longLine] }

/-- A document on which processing fails entirely. -/
def docFail : Doc := { path := { name := "bad.pdf" }, env := envFail }

/-- A document that succeeds through the heuristic path. -/
def docOk : Doc := { path := pathA, env := envHeur }

/-- A TEI `p` element with head text `B` and tail text `C`. -/
def pElemC3 : XmlElem := .node (teiTag "p") "B".data "C".data .nil

/-- A TEI `body` element with head text `A` and the `p` child: its
contained text fragments in document order are `A`, `B`, `C`. -/
def bodyC3 : XmlElem := .node (teiTag "body") "A".data [] (.cons pElemC3 .nil)

/-- A TEI document whose body is `bodyC3`. -/
def rootC3 : XmlElem := .node (teiTag "TEI") [] [] (.cons bodyC3 .nil)

/-- Service returns 200 with a body that parses to `rootC3`. -/
def envC3 : Env :=
  { service := .ok 200 "tei", parseXml := fun s => if s = "tei" then some rootC3 else none,
    pages := none }

/-- Local library returns two one-character pages. -/
def envC9 : Env :=
  { service := .exn, parseXml := fun _ => none, pages := some ["a".data, "b".data] }

/-! Claim theorems. -/

/-- C1 counterexample: the service completes with HTTP 200 and a
nonempty body that fails to parse as structured markup (`envC1`), and
the heuristic path would extract nonempty text; yet `parse_article`
resolves the document on the structured path alone and returns the
failure signal — the heuristic extraction is never substituted, contrary
to the claim that a malformed response falls through like service
unavailability. -/
theorem c1_malformed_counterexample :
    parse_article envC1 pathA = none ∧
    (extract_text_with_pymupdf envC1 pathA).full_text ≠ [] := by
  constructor
  · rfl
  · decide

/-- C1 amended: the heuristic path is substituted exactly when the
service call yields no body (`None`) or an empty body; a completed call
with a nonempty body — malformed or not — is resolved on the structured
path alone, and when that body fails to parse the document fails with no
heuristic fallback. -/
theorem c1_fallback_condition :
    (∀ (env : Env) (path : PPath) (body : String),
       parse_pdf_to_xml env path = some body → body ≠ "" →
       resolve env path = (extract_from_xml env body, "GROBID")) ∧
    (∀ (env : Env) (path : PPath) (body : String),
       parse_pdf_to_xml env path = some body → body ≠ "" →
       env.parseXml body = none → parse_article env path = none) ∧
    (∀ (env : Env) (path : PPath),
       (parse_pdf_to_xml env path = none ∨ parse_pdf_to_xml env path = some "") →
       resolve env path = (extract_text_with_pymupdf env path, "PyMuPDF")) := by
  refine ⟨?_, ?_, ?_⟩
  · intro env path body h hne
    simp [resolve, h, hne]
  · intro env path body h hne hp
    simp [parse_article, resolve, h, hne, extract_from_xml, hp]
  · intro env path h
    rcases h with h | h <;> simp [resolve, h]

/-- C1 witness: at `envC1` the completed malformed body stays on the
structured path. -/
theorem c1_fallback_condition_witness :
    resolve envC1 pathA = (extract_from_xml envC1 "not xml", "GROBID") :=
  c1_fallback_condition.1 envC1 pathA "not xml" rfl (by decide)

/-- C2: a result is emitted iff, after fallback resolution, the abstract
or the full text is nonempty; an emitted result never has both empty;
a failed document only bumps the `failed` counter and writes nothing,
while a successful one appends its result and writes exactly its
per-document file. -/
theorem c2_emission_iff :
    (∀ (env : Env) (path : PPath),
       (parse_article env path).isSome ↔
         ((resolve env path).1.abstract ≠ [] ∨ (resolve env path).1.full_text ≠ [])) ∧
    (∀ (env : Env) (path : PPath) (r : ExtractionResult),
       parse_article env path = some r → ¬(r.abstract = [] ∧ r.full_text = [])) ∧
    (∀ (st : BatchState) (d : Doc), parse_article d.env d.path = none →
       processDoc st d = { st with failed := st.failed + 1 }) ∧
    (∀ (st : BatchState) (d : Doc) (r : ExtractionResult),
       parse_article d.env d.path = some r →
       (processDoc st d).failed = st.failed ∧
       (processDoc st d).writes = st.writes ++
         [(r.title ++ "_" ++ r.method ++ ".json", FileContent.article r)] ∧
       (processDoc st d).results = st.results ++ [r]) := by
  refine ⟨?_, ?_, ?_, ?_⟩
  · intro env path
    by_cases hc : (resolve env path).1.abstract = [] ∧ (resolve env path).1.full_text = [] <;>
      simp [parse_article, hc] <;> tauto
  · intro env path r h
    simp only [parse_article] at h
    split at h
    · exact absurd h (by simp)
    · rename_i hc
      rw [Option.some.injEq] at h
      subst h
      simpa using hc
  · intro st d h
    simp [processDoc, h]
  · intro st d r h
    refine ⟨?_, ?_, ?_⟩ <;> simp [processDoc, h]

/-- C2 witness: the failing document bumps only the failure counter,
and the heuristic-success document is emitted with nonempty fields. -/
theorem c2_emission_iff_witness :
    processDoc initState docFail = { initState with failed := initState.failed + 1 } :=
  c2_emission_iff.2.2.1 initState docFail rfl

/-- C3 counterexample: for the parseable response `envC3`/`"tei"`, where
the `body` element holds the text fragments `A`, `B`, `C` in document
order (`C` being the tail fragment after the `p` child), the extraction
returns only `A B` — tail fragments, though contained in the element,
are not collected — so the field is not the space-join of all contained
non-empty text fragments. -/
theorem c3_fragments_counterexample :
    (extract_from_xml envC3 "tei").full_text = "A B".data ∧
    specFragJoin bodyC3 = "A B C".data ∧
    (extract_from_xml envC3 "tei").full_text ≠ specFragJoin bodyC3 := by
  refine ⟨rfl, rfl, by decide⟩

/-- C3 amended: for every parseable response, the abstract comes from
the first `profileDesc/abstract` element and the full text from the
first `body` element, each the space-join, in document order, of the
non-empty stripped head texts (`elem.text`) of the element and its
descendants — tail fragments excluded; a missing element yields the
empty string. -/
theorem c3_extraction_head_texts : ∀ (env : Env) (s : String) (root : XmlElem),
    env.parseXml s = some root →
    extract_from_xml env s =
      { abstract := (match find_profileDesc_abstract root with
                     | some e => specHeadJoin e
                     | none => []),
        full_text := (match find_body root with
                      | some e => specHeadJoin e
                      | none => []) } := by
  intro env s root h
  simp only [extract_from_xml, h]
  congr 1
  · cases find_profileDesc_abstract root <;>
      simp [extract_text_from_element, specHeadJoin, textsOf_eq_head]
  · cases find_body root <;>
      simp [extract_text_from_element, specHeadJoin, textsOf_eq_head]

/-- C3 witness: the amended statement evaluated on the concrete TEI
document `rootC3`. -/
theorem c3_extraction_head_texts_witness :
    extract_from_xml envC3 "tei" =
      { abstract := (match find_profileDesc_abstract rootC3 with
                     | some e => specHeadJoin e
                     | none => []),
        full_text := (match find_body rootC3 with
                      | some e => specHeadJoin e
                      | none => []) } :=
  c3_extraction_head_texts envC3 "tei" rootC3 rfl

/-- C4: the heuristic abstract construction equals the spec's scan
(append the stripped line plus a space when it is longer than 50
characters, checking the 500-character cutoff after the append) run over
exactly the first 20 lines; it depends on nothing beyond those lines;
and when every inspected stripped line is at most `L` characters the
buffer never exceeds 500 by more than one line plus its separating
space. -/
theorem c4_heuristic_scan :
    (∀ ft : PyStr, heuristicAbstract ft = abstractSpecScan ((pySplitNl ft).take 20) []) ∧
    (∀ ft1 ft2 : PyStr, (pySplitNl ft1).take 20 = (pySplitNl ft2).take 20 →
       heuristicAbstract ft1 = heuristicAbstract ft2) ∧
    (∀ (L : Nat) (ft : PyStr),
       (∀ l ∈ (pySplitNl ft).take 20, (pyStrip l).length ≤ L) →
       (heuristicAbstract ft).length ≤ 501 + L) := by
  refine ⟨?_, ?_, ?_⟩
  · intro ft
    simp [heuristicAbstract, abstractLoop_eq_spec]
  · intro ft1 ft2 h
    simp [heuristicAbstract, h]
  · intro L ft hL
    exact abstractLoop_bound L _ [] hL (by simp)

/-- C4 witness: the scan bound applied to the one-long-line text. -/
theorem c4_heuristic_scan_witness :
    (heuristicAbstract longLine).length ≤ 501 + 69 :=
  c4_heuristic_scan.2.2 69 longLine (by decide)

/-- C5: every lower-level fault is downgraded at its origin:
`parse_pdf_to_xml` returns `None` on a raised exception (network error,
timeout, open failure) and on any non-200 status; `extract_from_xml`
returns the empty dictionary on a markup parse error; and
`extract_text_with_pymupdf` returns the empty dictionary on a local
open/read failure. -/
theorem c5_fault_downgrade :
    (∀ (env : Env) (path : PPath), env.service = .exn →
       parse_pdf_to_xml env path = none) ∧
    (∀ (env : Env) (path : PPath) (status : Nat) (body : String),
       env.service = .ok status body → status ≠ 200 →
       parse_pdf_to_xml env path = none) ∧
    (∀ (env : Env) (s : String), env.parseXml s = none →
       extract_from_xml env s = { abstract := [], full_text := [] }) ∧
    (∀ (env : Env) (path : PPath), env.pages = none →
       extract_text_with_pymupdf env path = { abstract := [], full_text := [] }) := by
  refine ⟨?_, ?_, ?_, ?_⟩ <;> intros <;>
    simp [parse_pdf_to_xml, extract_from_xml, extract_text_with_pymupdf, *]

/-- C5 witness: the 503 response is downgraded to `None`. -/
theorem c5_fault_downgrade_witness :
    parse_pdf_to_xml env503 pathA = none :=
  c5_fault_downgrade.2.1 env503 pathA 503 "Service Unavailable" rfl (by decide)

/-- C6: every emitted result carries the path's file name, the title is
the file name with its extension removed, and the two length fields are
the character counts of the respective strings. -/
theorem c6_result_fields : ∀ (env : Env) (path : PPath) (r : ExtractionResult),
    parse_article env path = some r →
    r.filename = path.name ∧ r.title = stem path.name ∧
    r.abstract_length = r.abstract.length ∧ r.text_length = r.full_text.length := by
  intro env path r h
  simp only [parse_article] at h
  split at h
  · exact absurd h (by simp)
  · rw [Option.some.injEq] at h
    subst h
    exact ⟨rfl, rfl, rfl, rfl⟩

/-- The result emitted for `docOk`: the heuristic path succeeds on the
single long page. -/
def resW : ExtractionResult :=
  { filename := "paper.pdf", title := "paper", abstract := longLine, full_text := longLine,
    abstract_length := longLine.length, text_length := longLine.length, method := "PyMuPDF" }

/-- C6 witness: the field equations evaluated on the concrete
heuristic-success document. -/
theorem c6_result_fields_witness :
    resW.filename = pathA.name ∧ resW.title = stem pathA.name ∧
    resW.abstract_length = resW.abstract.length ∧ resW.text_length = resW.full_text.length :=
  c6_result_fields envHeur pathA resW (by decide)

/-- C7: in the reported statistics, `successful` is the sum of the two
per-method success counters, and `success_rate` is `successful` over
`total_files` as a percentage with one decimal place (in the idealised
rational reading of Python's float formatting); 2 of 3 gives `66.7%`. -/
theorem c7_stats_consistency :
    (∀ docs : List Doc,
       (mkStats docs.length (runBatch docs)).successful =
         (mkStats docs.length (runBatch docs)).grobid_success +
           (mkStats docs.length (runBatch docs)).pymupdf_success) ∧
    (∀ docs : List Doc,
       (mkStats docs.length (runBatch docs)).success_rate =
         formatPercent (mkStats docs.length (runBatch docs)).successful
           (mkStats docs.length (runBatch docs)).total_files) ∧
    formatPercent 2 3 = "66.7%" := by
  refine ⟨?_, ?_, by decide⟩
  · intro docs
    have hs := countP_method_split (successes docs)
    simp only [runBatch, mkStats]
    rw [foldl_processDoc_eq docs initState]
    simp [initState]
    omega
  · intro docs
    rfl

/-- C8 counterexample: a batch run over one document that fails entirely
writes nothing at all — in particular neither `all_articles.json` nor
`parsing_statistics.json` appears in the output directory, contrary to
the claim that they exist after every batch run. -/
theorem c8_no_summary_counterexample :
    finalWrites [docFail] = [] ∧ [docFail].length = 1 :=
  ⟨rfl, rfl⟩

/-- C8 amended: after a batch run with at least one successful result,
the output consists of exactly one `\x7btitle\x7d_\x7bmethod\x7d.json`
file per successful document, in enumeration order, followed by
`all_articles.json` with the ordered successful results and
`parsing_statistics.json` with the statistics; a run with no successful
result writes none of these. -/
theorem c8_run_outputs : ∀ docs : List Doc, (runBatch docs).results ≠ [] →
    finalWrites docs =
      ((runBatch docs).results.map
        (fun r => (r.title ++ "_" ++ r.method ++ ".json", FileContent.article r)))
      ++ [("all_articles.json", FileContent.allArticles (runBatch docs).results),
          ("parsing_statistics.json",
            FileContent.statistics (mkStats docs.length (runBatch docs)))] := by
  intro docs h
  simp only [finalWrites]
  rw [if_pos h]
  have hw : (runBatch docs).writes = (runBatch docs).results.map
      (fun r => (r.title ++ "_" ++ r.method ++ ".json", FileContent.article r)) := by
    simp only [runBatch]
    rw [foldl_processDoc_eq docs initState]
    simp [initState]
  rw [hw]

/-- C8 witness: the amended output layout for a one-document successful
run. -/
theorem c8_run_outputs_witness :
    finalWrites [docOk] =
      (((runBatch [docOk]).results).map
        (fun r => (r.title ++ "_" ++ r.method ++ ".json", FileContent.article r)))
      ++ [("all_articles.json", FileContent.allArticles (runBatch [docOk]).results),
          ("parsing_statistics.json",
            FileContent.statistics (mkStats [docOk].length (runBatch [docOk])))] :=
  c8_run_outputs [docOk] (by decide)

/-- C9 counterexample: with two pages `a` and `b` the heuristic full
text is `a\nb` — the code appends a newline after every kept page and
strips the ends — which differs from the plain concatenation `ab` of the
visible page texts that the claim describes. -/
theorem c9_newline_counterexample :
    (extract_text_with_pymupdf envC9 pathA).full_text = "a\nb".data ∧
    specPlainConcat ["a".data, "b".data] = "ab".data ∧
    (extract_text_with_pymupdf envC9 pathA).full_text ≠
      specPlainConcat ["a".data, "b".data] := by
  refine ⟨rfl, rfl, by decide⟩

/-- C9 amended: on the heuristic path, `full_text` is the concatenation,
in page order, of `text + "\n"` for every page whose text is not only
whitespace, with leading and trailing whitespace stripped from the final
result. -/
theorem c9_full_text_shape : ∀ (env : Env) (path : PPath) (pages : List PyStr),
    env.pages = some pages →
    (extract_text_with_pymupdf env path).full_text =
      pyStrip (((pages.filter (fun t => pyStrip t ≠ [])).map (fun t => t ++ ['\n'])).flatten) := by
  intro env path pages h
  simp only [extract_text_with_pymupdf, h]
  rw [pagesFold_eq]
  simp only [List.nil_append]

/-- C9 witness: the amended shape evaluated on the two-page document. -/
theorem c9_full_text_shape_witness :
    (extract_text_with_pymupdf envC9 pathA).full_text =
      pyStrip ((((["a".data, "b".data]).filter (fun t => pyStrip t ≠ [])).map
        (fun t => t ++ ['\n'])).flatten) :=
  c9_full_text_shape envC9 pathA ["a".data, "b".data] rfl

/-- C10: every enumerated document bumps exactly one of the two tallies,
so after the loop the successful-result count plus the failure count
equals the number of enumerated documents, and in the statistics
`successful + failed = total_files`. -/
theorem c10_success_failed_partition : ∀ docs : List Doc,
    (runBatch docs).results.length + (runBatch docs).failed = docs.length ∧
    (mkStats docs.length (runBatch docs)).successful +
      (mkStats docs.length (runBatch docs)).failed =
      (mkStats docs.length (runBatch docs)).total_files := by
  intro docs
  have hl := successes_length_add_none docs
  constructor
  · simp only [runBatch]
    rw [foldl_processDoc_eq docs initState]
    simp [initState]
    omega
  · simp only [runBatch, mkStats]
    rw [foldl_processDoc_eq docs initState]
    simp [initState]
    omega
